import Mathlib

/-!
Verification of the qc_tool reconciliation core against its specification.

The Python sources under src/ are shallowly embedded: Python strings are
modelled as lists of characters (the ASCII fragment of the unicode
semantics), pandas missing values (NaN / pd.NA) as Option, numeric cell
values as rationals, and Python exceptions as Except values.  Each
definition mirrors one function of the repository; the theorems settle the
frozen claims about them.
-/

namespace QcTool

abbrev Str := List Char

/-- Whitespace characters removed by the Python str.strip method
(ASCII fragment of the unicode whitespace class). -/
def isPySpace (c : Char) : Bool :=
  c == ' ' || c == '\t' || c == '\n' || c == '\r' || c == '\x0b' || c == '\x0c'

/-- Model of the Python str.strip method with no argument: drop leading and
trailing whitespace. -/
def pyStrip (s : Str) : Str :=
  ((s.dropWhile isPySpace).reverse.dropWhile isPySpace).reverse

/-- Model of the Python str.upper method (ASCII fragment). -/
def pyUpper (s : Str) : Str := s.map Char.toUpper

/-- Model of the Python str.lower method (ASCII fragment). -/
def pyLower (s : Str) : Str := s.map Char.toLower

/-- Model of re.sub with the anchored pattern backslash-dot-zero-dollar and
empty replacement, as used by Series.str.replace in the loaders: removes one
trailing ".0"; the dollar anchor of Python also matches just before a single
final newline, so ".0" directly before a final newline is removed as well. -/
def chopDot0 (s : Str) : Str :=
  if s.reverse.take 2 = ['0', '.'] then (s.reverse.drop 2).reverse
  else if s.reverse.take 3 = ['\n', '0', '.'] then ('\n' :: s.reverse.drop 3).reverse
  else s

/-- Embedding of norm_id from src/src/data/models/tse_compare.py lines 65-71:
astype(str) then strip then upper then regex-removal of a trailing ".0". -/
def normId (s : Str) : Str := chopDot0 (pyUpper (pyStrip s))

/-- Embedding of norm_enum from src/src/data/models/tse_compare.py lines
73-75: astype(str) then strip then upper. -/
def normEnum (s : Str) : Str := pyUpper (pyStrip s)

/-- Model of the Python split(sep=space, maxsplit=1) call on a string that
contains a space: the part before the first space and the part after it. -/
def pySplitSpace1 (s : Str) : Str × Str :=
  (s.takeWhile (fun c => c != ' '), (s.dropWhile (fun c => c != ' ')).drop 1)

/-- Embedding of split_uncertainty_valuation from
src/src/data/bronze/bronze_p1_tse.py lines 39-53.  The input None models a
missing (NaN) cell; any other cell arrives as its string form. -/
def splitUncertaintyValuation (v : Option Str) : Str × Str :=
  match v with
  | none => ([], [])
  | some value =>
    let s := pyStrip value
    if s = "Low".toList then ("Low".toList, "PR".toList)
    else if s = "High".toList then ("High".toList, "PR".toList)
    else if s = "SEC".toList then ("Low".toList, "YAP".toList)
    else if ' ' ∈ s then pySplitSpace1 s
    else (s, [])

/-- The splitting rule exactly as the claim words it, with the case analysis
applied to the raw value (no trimming).  Used only to exhibit where the claim
and the source disagree. -/
def splitUncertaintyValuationClaim (v : Option Str) : Str × Str :=
  match v with
  | none => ([], [])
  | some value =>
    if value = "Low".toList then ("Low".toList, "PR".toList)
    else if value = "High".toList then ("High".toList, "PR".toList)
    else if value = "SEC".toList then ("Low".toList, "YAP".toList)
    else if ' ' ∈ value then pySplitSpace1 value
    else (value, [])

/-- Digit run of a Python int literal: ASCII digits with single underscores
allowed only between digits, evaluated to its numeric value. -/
def pyDigitsToNat (ds : Str) : Option Nat :=
  if ds = [] then none
  else if (ds.all fun c => c.isDigit || c == '_')
          ∧ ds.head? ≠ some '_' ∧ ds.getLast? ≠ some '_'
          ∧ ((ds.zip ds.tail).all fun p => !(p.1 == '_' && p.2 == '_')) then
    some ((ds.filter fun c => c != '_').foldl (fun n c => 10 * n + (c.toNat - '0'.toNat)) 0)
  else none

/-- Model of the Python int constructor on a string (ASCII fragment):
surrounding whitespace is stripped, an optional sign is accepted, the body
must be a digit run; None models the ValueError path. -/
def pyIntParse (s : Str) : Option Int :=
  match pyStrip s with
  | '+' :: ds => (pyDigitsToNat ds).map fun n => (n : Int)
  | '-' :: ds => (pyDigitsToNat ds).map fun n => -(n : Int)
  | ds => (pyDigitsToNat ds).map fun n => (n : Int)

/-- Embedding of get_days_in_year from src/src/data/bronze/bronze_p1_tse.py
lines 252-258: 366 for leap years, 365 otherwise, 365 when int() raises. -/
def getDaysInYear (year : Str) : Nat :=
  match pyIntParse year with
  | some y => if (y % 4 = 0 ∧ y % 100 ≠ 0) ∨ y % 400 = 0 then 366 else 365
  | none => 365

/-- Embedding of the day-scaling loop of extract_production_data lines
261-263: each year column is multiplied elementwise by the day count of the
year named by the column label. -/
def scaleYearColumn (col : List ℚ) (year : Str) : List ℚ :=
  col.map fun v => v * (getDaysInYear year : ℚ)

/-- Model of the Python str.split method with no separator: split on runs of
whitespace, dropping empty tokens.  Fuel bounds the recursion; it is always
called with more fuel than characters. -/
def pySplitWsAux : Nat → Str → List Str
  | 0, _ => []
  | _, [] => []
  | fuel + 1, c :: rest =>
    if isPySpace c then pySplitWsAux fuel rest
    else (c :: rest.takeWhile fun d => !(isPySpace d))
         :: pySplitWsAux fuel (rest.dropWhile fun d => !(isPySpace d))

def pySplitWs (s : Str) : List Str := pySplitWsAux (s.length + 1) s

/-- Model of the Python str.replace method (all non-overlapping occurrences,
scanning left to right); only ever used with a non-empty pattern. -/
def pyReplaceAux (pat rep : Str) : Nat → Str → Str
  | 0, s => s
  | _, [] => []
  | fuel + 1, c :: rest =>
    if pat.isPrefixOf (c :: rest) then
      rep ++ pyReplaceAux pat rep fuel ((c :: rest).drop pat.length)
    else c :: pyReplaceAux pat rep fuel rest

def pyReplace (s pat rep : Str) : Str :=
  if pat = [] then s else pyReplaceAux pat rep (s.length + 1) s

/-- First index at which sep occurs as a substring of s. -/
def findSubIdx (sep s : Str) : Option Nat :=
  (List.range (s.length + 1)).find? fun i => sep.isPrefixOf (s.drop i)

/-- Model of the Python str.split method with an explicit separator and no
maxsplit: split at every occurrence of sep, keeping empty parts. -/
def pySplitSepAux (sep : Str) : Nat → Str → List Str
  | 0, s => [s]
  | fuel + 1, s =>
    match findSubIdx sep s with
    | some i => s.take i :: pySplitSepAux sep fuel (s.drop (i + sep.length))
    | none => [s]

def pySplitSep (sep s : Str) : List Str :=
  if sep = [] then [s] else pySplitSepAux sep (s.length + 1) s

/-- Candidate lengths of a leading one-or-more-whitespace match, in greedy
(longest first) backtracking order. -/
def wsRunLens (r : Str) : List Nat :=
  let m := (r.takeWhile isPySpace).length
  (List.range m).map fun i => m - i

/-- Candidate lengths of a leading one-or-more-non-dash match, in lazy
(shortest first) backtracking order. -/
def nonDashRunLens (r : Str) : List Nat :=
  let m := (r.takeWhile fun c => c != '-').length
  (List.range m).map fun i => i + 1

/-- Backtracking matcher for the anchored search of
_parse_production_metric, regex pattern: caret, dash, one-or-more
whitespace, lazy non-empty group of non-dash characters, one-or-more
whitespace, lazy non-empty group of non-dash characters, one-or-more
whitespace, dash, one-or-more whitespace, greedy non-empty group of
non-newline characters, dollar.  The dollar anchor also accepts a single
trailing newline after the last group.  Returns the captured groups. -/
def reMetricMatch (s : Str) : Option (Str × Str × Str) :=
  match s with
  | [] => none
  | c :: rest =>
    if c = '-' then
      (wsRunLens rest).findSome? fun w1 =>
        let r1 := rest.drop w1
        (nonDashRunLens r1).findSome? fun l1 =>
          let g1 := r1.take l1
          let r2 := r1.drop l1
          (wsRunLens r2).findSome? fun w2 =>
            let r3 := r2.drop w2
            (nonDashRunLens r3).findSome? fun l2 =>
              let g2 := r3.take l2
              let r4 := r3.drop l2
              (wsRunLens r4).findSome? fun w3 =>
                match r4.drop w3 with
                | '-' :: r6 =>
                  (wsRunLens r6).findSome? fun w4 =>
                    let r7 := r6.drop w4
                    let g3 := r7.takeWhile fun d => d != '\n'
                    if g3 ≠ [] ∧ (g3.length = r7.length ∨ g3.length + 1 = r7.length)
                    then some (g1, g2, g3)
                    else none
                | _ => none
    else none

/-- The five attributes produced for each production metric label. -/
structure MetricRecord where
  PRODUCT : Str
  EQUITY_SHARE : Str
  PRODUCT_STREAM : Str
  CUT_OFF : Str
  TYPE : Str
deriving DecidableEq, Repr

/-- Python exceptions relevant to the embedded code. -/
inductive PyErr where
  | unboundLocal (n : String) : PyErr
  | runtimeError (msg : String) : PyErr
deriving DecidableEq, Repr

deriving instance DecidableEq for Except

def emptyMetricRecord : MetricRecord := ⟨[], [], [], [], []⟩

/-- Embedding of the try-block body of LoaderP1TSE._parse_production_metric,
src/src/data/bronze/bronze_p1_tse.py lines 68-115.  When the regex does not
match, the fallback arms (lines 92-107) assign product_stream, cut_off and
metric_type but never equity_share, so building the result dict at line 109
raises UnboundLocalError in every fallback path; the error value models that
exception. -/
def parseMetricInner (ms : Str) : Except PyErr MetricRecord :=
  let remaining := ms.drop 4
  let parts := pySplitWs remaining
  let product := match parts with
    | [] => []
    | p :: _ => pyUpper p
  let productStream := match parts.get? 1 with
    | some p => pyUpper p
    | none => []
  let remainingStr := if parts.length > 2 then List.intercalate [' '] (parts.drop 2) else []
  match reMetricMatch remainingStr with
  | some (g1, g2, g3) =>
    .ok { PRODUCT := product
          EQUITY_SHARE := pyStrip (pyReplace g1 "%".toList [])
          PRODUCT_STREAM := productStream
          CUT_OFF := pyStrip (pyReplace (pyReplace g2 "tr".toList "Applied".toList)
                                "unt".toList "Not Applied".toList)
          TYPE := pyStrip g3 }
  | none => .error (.unboundLocal "equity_share")

/-- Embedding of _parse_production_metric with its except-handler, lines
117-125: any internal exception yields the all-empty record; the function
never propagates an exception, which the always-ok result models. -/
def parseMetricE (ms : Str) : Except PyErr MetricRecord :=
  match parseMetricInner ms with
  | .ok r => .ok r
  | .error _ => .ok emptyMetricRecord

/-- The record actually returned to the caller. -/
def parseMetricRecord (ms : Str) : MetricRecord :=
  match parseMetricInner ms with
  | .ok r => r
  | .error _ => emptyMetricRecord

def canonicalLabel : Str := "01. OIL SWIS - 45% - Not Applied - Sales".toList

def codedLabel : Str := "01. OIL SWIS - 45% unt - Sales".toList

/-- Group key of the annual aggregation in extract_production_data lines
198-206: the key attributes carried through the melt plus the extracted
four-digit year. -/
structure PGroupKey where
  tseId : Str
  tseName : Str
  rawTseId : Str
  uncertainty : Str
  valuation : Str
  productionMetric : Str
  yearOnly : Str
deriving DecidableEq, Repr

/-- One melted observation: its group key and its numeric value. -/
structure PObs where
  key : PGroupKey
  value : ℚ
deriving DecidableEq, Repr

/-- Embedding of the size-per-group count of lines 208-213 (MonthCount). -/
def monthCount (rows : List PObs) (k : PGroupKey) : Nat :=
  (rows.filter fun o => o.key = k).length

/-- Embedding of the per-group value sum of lines 215-220. -/
def groupSum (rows : List PObs) (k : PGroupKey) : ℚ :=
  ((rows.filter fun o => o.key = k).map fun o => o.value).sum

/-- Embedding of the month-aware averaging of lines 222-225: divide the
group sum by MonthCount only when MonthCount exceeds one. -/
def annualValue (rows : List PObs) (k : PGroupKey) : ℚ :=
  if 1 < monthCount rows k then groupSum rows k / (monthCount rows k : ℚ)
  else groupSum rows k

def sampleKey : PGroupKey :=
  ⟨"100".toList, "TSE".toList, "100".toList, "Low".toList, "PR".toList,
    "01. OIL".toList, "2025".toList⟩

/-- Keep-first de-duplication, the pandas drop_duplicates and groupby key
semantics (first occurrence wins, order preserved). -/
def dedupFirstAux {α : Type} [DecidableEq α] : Nat → List α → List α
  | 0, _ => []
  | _, [] => []
  | fuel + 1, a :: t => a :: dedupFirstAux fuel (t.filter fun b => decide (b ≠ a))

def dedupFirst {α : Type} [DecidableEq α] (l : List α) : List α :=
  dedupFirstAux (l.length + 1) l

/-- The composite reconciliation key of TSEComparator.MERGE_KEYS (the name
column is excluded from the join everywhere in compare()). -/
structure CompKey where
  tseId : Str
  equityShare : Str
  productStream : Str
  product : Str
  uncertainty : Str
  valuation : Str
  cutOff : Str
deriving DecidableEq, Repr

/-- One canonical production table handed to the comparator: its column
names that are candidate year columns, and one row per record, each with its
composite key and its year-column cells (an association list; every row of a
dataframe carries every column). -/
structure SideTable where
  years : List Str
  rows : List (CompKey × List (Str × ℚ))
deriving DecidableEq, Repr

/-- Cell lookup in a row: the value under a column label, 0 when absent. -/
def cellVal (vals : List (Str × ℚ)) (y : Str) : ℚ :=
  ((vals.find? fun p => decide (p.1 = y)).map Prod.snd).getD 0

/-- The key normalization of compare() lines 77-89: norm_id on the ID and
norm_enum on the six categorical attributes. -/
def normKey (k : CompKey) : CompKey :=
  ⟨normId k.tseId, normEnum k.equityShare, normEnum k.productStream,
    normEnum k.product, normEnum k.uncertainty, normEnum k.valuation,
    normEnum k.cutOff⟩

def normSide (t : SideTable) : SideTable :=
  ⟨t.years, t.rows.map fun r => (normKey r.1, r.2)⟩

/-- Model of the Python str.isdigit test (ASCII fragment): non-empty and all
digits.  Used by compare() lines 92-93 to discover year columns. -/
def isDigitStr (s : Str) : Bool := !s.isEmpty && s.all Char.isDigit

def yearColsOf (t : SideTable) : List Str := t.years.filter isDigitStr

/-- The years appearing as digit-named columns on both sides, compare()
line 94 (the sorting of the original is irrelevant to the claims). -/
def tseCommonYears (p1 r1 : SideTable) : List Str :=
  (yearColsOf (normSide p1)).filter fun y => decide (y ∈ yearColsOf (normSide r1))

/-- The distinct composite keys of one side (groupby group labels). -/
def keysOf (t : SideTable) : List CompKey := dedupFirst (t.rows.map Prod.fst)

/-- The per-key, per-year sum computed by the groupby aggregation of
compare() lines 102-103. -/
def aggVal (t : SideTable) (k : CompKey) (y : Str) : ℚ :=
  ((t.rows.filter fun r => decide (r.1 = k)).map fun r => cellVal r.2 y).sum

/-- The aggregated table of one side: one row per distinct key, year cells
summed over the group. -/
def aggRows (t : SideTable) : List (CompKey × List (Str × ℚ)) :=
  (keysOf t).map fun k => (k, (yearColsOf t).map fun y => (y, aggVal t k y))

/-- Keys of the full outer join: left keys, then right-only keys. -/
def outerKeys (p1 r1 : SideTable) : List CompKey :=
  keysOf p1 ++ (keysOf r1).filter fun k => decide (k ∉ keysOf p1)

/-- One row of the outer merge of compare() lines 118-124: the key and the
two sides of aggregated year cells, absent (all-NaN after the outer join)
when the key is missing on that side. -/
structure MergedRow where
  key : CompKey
  p1Vals : Option (List (Str × ℚ))
  r1Vals : Option (List (Str × ℚ))
deriving DecidableEq, Repr

def mergedRowFor (p1 r1 : SideTable) (k : CompKey) : MergedRow :=
  ⟨k, ((aggRows (normSide p1)).find? fun e => decide (e.1 = k)).map Prod.snd,
      ((aggRows (normSide r1)).find? fun e => decide (e.1 = k)).map Prod.snd⟩

/-- The merged table of TSEComparator.compare: normalize both sides,
aggregate per side, outer-join on the composite key. -/
def tseMergedRows (p1 r1 : SideTable) : List MergedRow :=
  (outerKeys (normSide p1) (normSide r1)).map (mergedRowFor p1 r1)

/-- fillna(0) on an outer-join cell. -/
def fillna0 : Option ℚ → ℚ
  | none => 0
  | some v => v

/-- The year diff column of compare() lines 126-131:
merged P1 cell fillna 0 minus merged R1 cell fillna 0. -/
def diffAt (m : MergedRow) (y : Str) : ℚ :=
  fillna0 (m.p1Vals.map fun vals => cellVal vals y)
    - fillna0 (m.r1Vals.map fun vals => cellVal vals y)

/-- The comparator output the claims inspect: the common-year diff columns
and the merged rows. -/
structure TSECompareOut where
  diffYears : List Str
  rows : List MergedRow
deriving DecidableEq, Repr

def tseCompareTables (p1 r1 : SideTable) : TSECompareOut :=
  ⟨tseCommonYears p1 r1, tseMergedRows p1 r1⟩

/-- The comparator object state: the two input tables, unset until the
corresponding setter ran. -/
structure TSEComparatorState where
  dfP1 : Option SideTable
  dfR1 : Option SideTable
deriving DecidableEq, Repr

/-- Embedding of TSEComparator.compare lines 57-168: the guard of lines
58-59 raises RuntimeError when either input is unset; compare never mutates
the comparator, so the state is returned unchanged on every path. -/
def tseCompare (s : TSEComparatorState) :
    Except PyErr TSECompareOut × TSEComparatorState :=
  match s.dfP1, s.dfR1 with
  | some a, some b => (.ok (tseCompareTables a b), s)
  | _, _ =>
    (.error (.runtimeError "Set P1 and R1 dataframes first or use from_paths()."), s)

/-- One raw hierarchy row as consumed by HierarchyComparison: the TSE ID and
the three name columns, each possibly missing. -/
structure HierRow where
  tseId : Option Str
  tseName : Option Str
  aeName : Option Str
  teName : Option Str
deriving DecidableEq, Repr

/-- astype(str) of a possibly missing cell: NaN prints as "nan". -/
def cellStr : Option Str → Str
  | none => "nan".toList
  | some s => s

/-- Embedding of _norm_id from hierarchy_compare.py lines 22-30: astype(str),
strip, removal of a trailing ".0", upper, then the literal "NAN" becomes
missing. -/
def hierNormId (v : Option Str) : Option Str :=
  let t := pyUpper (chopDot0 (pyStrip (cellStr v)))
  if t = "NAN".toList then none else some t

/-- Embedding of _norm_name from hierarchy_compare.py lines 32-39:
astype(str), strip, the literal "nan" and the empty string become missing,
then lower. -/
def hierNormName (v : Option Str) : Option Str :=
  let t := pyStrip (cellStr v)
  if t = "nan".toList ∨ t = [] then none else some (pyLower t)

/-- A prepared hierarchy row: normalized ID, the display columns, and the
two shadow name columns added by _prepare_p1 / _prepare_r1. -/
structure PrepRow where
  id : Option Str
  tseName : Option Str
  aeName : Option Str
  teName : Option Str
  aeSh : Option Str
  teSh : Option Str
deriving DecidableEq, Repr

/-- Row part of HierarchyComparison._prepare_p1 lines 203-220 (the R1
preparation lines 222-266 computes the same fields for the columns the
comparison reads): normalize the ID and compute the shadow names. -/
def prepareRow (r : HierRow) : PrepRow :=
  ⟨hierNormId r.tseId, r.tseName, r.aeName, r.teName,
    hierNormName r.aeName, hierNormName r.teName⟩

def prepareSide (rows : List HierRow) : List PrepRow :=
  dedupFirst (rows.map prepareRow)

def hierIds (rows : List PrepRow) : List (Option Str) :=
  dedupFirst (rows.map fun r => r.id)

def hierOuterIds (p r : List PrepRow) : List (Option Str) :=
  hierIds p ++ (hierIds r).filter fun i => decide (i ∉ hierIds p)

/-- One row of the outer merge of build() lines 277-279, keyed by the
normalized TSE ID; each side carries its first prepared row for that ID when
present. -/
structure HMergedRow where
  id : Option Str
  p1 : Option PrepRow
  r1 : Option PrepRow
deriving DecidableEq, Repr

/-- The merged row of build() for one joined ID value. -/
def hierMergedRowFor (pRows rRows : List HierRow) (i : Option Str) : HMergedRow :=
  ⟨i, (prepareSide pRows).find? fun e => decide (e.id = i),
      (prepareSide rRows).find? fun e => decide (e.id = i)⟩

def hierMergedRows (pRows rRows : List HierRow) : List HMergedRow :=
  (hierOuterIds (prepareSide pRows) (prepareSide rRows)).map (hierMergedRowFor pRows rRows)

/-- The merged AE shadow-name column of one side: missing when the side is
absent from the join or its name normalized to missing. -/
def aeShP (m : HMergedRow) : Option Str := m.p1.bind fun e => e.aeSh

def aeShR (m : HMergedRow) : Option Str := m.r1.bind fun e => e.aeSh

def teShP (m : HMergedRow) : Option Str := m.p1.bind fun e => e.teSh

def teShR (m : HMergedRow) : Option Str := m.r1.bind fun e => e.teSh

def checkMark : String := "✅"

def crossMark : String := "❌"

/-- Embedding of the AE name-match flag of build() lines 286-290: notna on
both merged shadow columns and equality, rendered as a mark. -/
def aeNameMatch (m : HMergedRow) : String :=
  if (aeShP m).isSome ∧ (aeShR m).isSome ∧ aeShP m = aeShR m then checkMark else crossMark

/-- Embedding of the TE name-match flag of build() lines 292-296. -/
def teNameMatch (m : HMergedRow) : String :=
  if (teShP m).isSome ∧ (teShR m).isSome ∧ teShP m = teShR m then checkMark else crossMark

/-- One output row of build(): the merged row and its two match flags. -/
structure HierOutRow where
  row : HMergedRow
  aeFlag : String
  teFlag : String
deriving DecidableEq, Repr

def hierBuildRows (pRows rRows : List HierRow) : List HierOutRow :=
  (hierMergedRows pRows rRows).map fun m => ⟨m, aeNameMatch m, teNameMatch m⟩

/-- The HierarchyComparison object state: the two inputs and the cached
output, each unset until assigned. -/
structure HierComparisonState where
  dfP1 : Option (List HierRow)
  dfR1 : Option (List HierRow)
  dfOut : Option (List HierOutRow)
deriving DecidableEq, Repr

/-- Embedding of HierarchyComparison.build lines 269-312: the guard of lines
270-271 raises RuntimeError before anything else runs, leaving the state
untouched; on success the output is computed and cached in df_out. -/
def hierBuild (s : HierComparisonState) :
    Except PyErr (List HierOutRow) × HierComparisonState :=
  match s.dfP1, s.dfR1 with
  | some p, some r =>
    let out := hierBuildRows p r
    (.ok out, { s with dfOut := some out })
  | _, _ =>
    (.error (.runtimeError "Both P1 and R1 hierarchy DataFrames must be set before build()."), s)

/-- A raw table as read from Excel before header repair: current header
names and the data rows, cells possibly missing. -/
structure RawTable where
  header : List Str
  rows : List (List (Option Str))
deriving DecidableEq, Repr

/-- The _HEADER_CANDIDATES set of LoaderP1Hierarchy lines 40-47. -/
def headerCandidates : List Str :=
  ["activity entity".toList, "activity entity id".toList,
   "technical entity".toList, "technical entity id".toList,
   "technical sub entity".toList, "technical sub entity id".toList,
   "technical sub-entity".toList, "technical sub-entity id".toList,
   "technical_sub_entity".toList, "technical_sub_entity id".toList,
   "tse id".toList]

/-- Model of the Python substring containment test (pat in s). -/
def pyContainsSub (pat s : Str) : Bool := s.tails.any fun t => pat.isPrefixOf t

/-- Count of header names that lower-case-start with "unnamed",
_maybe_promote_header_row line 69. -/
def unnamedCount (t : RawTable) : Nat :=
  (t.header.filter fun c => "unnamed".toList.isPrefixOf (pyLower c)).length

/-- Exact-rational model of the float comparison of line 74,
unnamed count divided by max(column count, 1) strictly below 0.4. -/
def unnamedFracLt04 (t : RawTable) : Bool :=
  5 * unnamedCount t < 2 * max t.header.length 1

/-- Lines 70-73: some current header name contains a candidate label as a
substring after strip and lower. -/
def haveKeyInCols (t : RawTable) : Bool :=
  t.header.any fun c => headerCandidates.any fun lbl => pyContainsSub lbl (pyLower (pyStrip c))

/-- Line 79: number of leading rows scanned. -/
def scanCount (t : RawTable) : Nat := min 8 t.rows.length

/-- Lines 83-84: count of cells of row i whose astype(str), strip, lower
form is one of the candidate labels. -/
def rowScore (t : RawTable) (i : Nat) : Nat :=
  (((t.rows.getD i []).map fun c => pyLower (pyStrip (cellStr c))).filter
      fun v => decide (v ∈ headerCandidates)).length

/-- One iteration of the scan loop of lines 85-87: a strictly higher score
replaces the best row, ties keep the earlier row. -/
def scanStep (t : RawTable) (st : Option Nat × Int) (i : Nat) : Option Nat × Int :=
  if (rowScore t i : Int) > st.2 then (some i, (rowScore t i : Int)) else st

/-- The scan loop of lines 80-87: fold tracking the first row of maximal
score, starting from best score -1. -/
def bestScan (t : RawTable) : Option Nat × Int :=
  (List.range (scanCount t)).foldl (scanStep t) (none, -1)

/-- Lines 96: dropna(axis=1, how=all) after the reheader; a column is kept
when some row has a value there (all columns are kept when no rows are
left). -/
def dropAllNaNCols (header : List Str) (rows : List (List (Option Str))) : RawTable :=
  let keep : List Nat := (List.range header.length).filter fun j =>
    rows.isEmpty || rows.any fun r => (r.getD j none).isSome
  ⟨keep.map fun j => header.getD j [], rows.map fun r => keep.map fun j => r.getD j none⟩

/-- Lines 91-97: promote row i to the header, keep only the rows below it,
drop all-missing columns. -/
def promoteAt (t : RawTable) (i : Nat) : RawTable :=
  dropAllNaNCols ((t.rows.getD i []).map fun c => pyStrip (cellStr c)) (t.rows.drop (i + 1))

/-- Embedding of LoaderP1Hierarchy._maybe_promote_header_row lines 56-100. -/
def maybePromoteHeaderRow (t : RawTable) : RawTable :=
  if t.rows.isEmpty || t.header.isEmpty then t
  else if haveKeyInCols t && unnamedFracLt04 t then t
  else
    match (bestScan t).1 with
    | some i => if 3 ≤ (bestScan t).2 then promoteAt t i else t
    | none => t

/-- A concrete composite key already in normalized form. -/
def keyA : CompKey :=
  ⟨"100".toList, "45".toList, "SWIS".toList, "OIL".toList, "LOW".toList,
    "PR".toList, "NOT APPLIED".toList⟩

/-- A second concrete composite key, distinct from keyA. -/
def keyB : CompKey :=
  ⟨"200".toList, "45".toList, "SWIS".toList, "OIL".toList, "LOW".toList,
    "PR".toList, "NOT APPLIED".toList⟩

def p1Sample : SideTable := ⟨["2025".toList], [(keyA, [("2025".toList, 5)])]⟩

def r1Sample : SideTable := ⟨["2025".toList], [(keyB, [("2025".toList, 3)])]⟩

def hierPSample : List HierRow :=
  [⟨some "100".toList, some "Alpha".toList, some "AE One".toList, some "TE One".toList⟩]

def hierRSample : List HierRow :=
  [⟨some "100".toList, some "Alpha".toList, some "ae one".toList, none⟩]

/-- The build output row for the sample hierarchy inputs at the joined ID
"100". -/
def hierOutSampleRow : HierOutRow :=
  ⟨hierMergedRowFor hierPSample hierRSample (some "100".toList),
   aeNameMatch (hierMergedRowFor hierPSample hierRSample (some "100".toList)),
   teNameMatch (hierMergedRowFor hierPSample hierRSample (some "100".toList))⟩

/-- All-unnamed header whose third data row is the unique best-scoring
header candidate. -/
def t9Sample : RawTable :=
  ⟨["Unnamed: 0".toList, "Unnamed: 1".toList, "Unnamed: 2".toList],
   [[some "x".toList, none, none],
    [none, none, none],
    [some "tse id".toList, some "technical entity".toList, some "activity entity".toList],
    [some "1".toList, some "2".toList, some "3".toList]]⟩

/-- Header containing a recognized label and unnamed ratio below 0.4. -/
def t9bSample : RawTable := ⟨["tse id".toList], [[some "v".toList]]⟩

/-- Header containing a recognized label but unnamed ratio 2/3: the early
exit of line 74 does not fire, and the single data row scores 3. -/
def t9CexSample : RawTable :=
  ⟨["tse id".toList, "Unnamed: 1".toList, "Unnamed: 2".toList],
   [[some "activity entity".toList, some "technical entity".toList, some "tse id".toList]]⟩

/-- dropWhile never lengthens a list. -/
theorem dropWhileLenLe {α : Type} (p : α → Bool) (l : List α) :
    (l.dropWhile p).length ≤ l.length := by
  induction l with
  | nil => simp [List.dropWhile]
  | cons a t ih =>
    rw [List.dropWhile_cons]
    split
    · exact le_trans ih (by simp)
    · simp

/-- Claim C5: the day-scaling step multiplies a year column by 366 exactly
when the parsed year y satisfies (y mod 4 = 0 and y mod 100 differs from 0)
or y mod 400 = 0, and by 365 otherwise; 2024 and 2000 scale by 366, 2025 and
2100 by 365; an unparseable year identifier scales by 365 without raising. -/
theorem c5_day_scaling :
    (∀ year y, pyIntParse year = some y →
      getDaysInYear year = if (y % 4 = 0 ∧ y % 100 ≠ 0) ∨ y % 400 = 0 then 366 else 365)
    ∧ (∀ year, pyIntParse year = none → getDaysInYear year = 365)
    ∧ getDaysInYear "2024".toList = 366
    ∧ getDaysInYear "2000".toList = 366
    ∧ getDaysInYear "2025".toList = 365
    ∧ getDaysInYear "2100".toList = 365
    ∧ (∀ col, scaleYearColumn col "2024".toList = col.map fun v => v * 366)
    ∧ (∀ col year, pyIntParse year = none →
        scaleYearColumn col year = col.map fun v => v * 365) := by
  refine ⟨?_, ?_, by decide, by decide, by decide, by decide, ?_, ?_⟩
  · intro year y h
    unfold getDaysInYear
    rw [h]
  · intro year h
    unfold getDaysInYear
    rw [h]
  · intro col
    have h : getDaysInYear "2024".toList = 366 := by decide
    unfold scaleYearColumn
    have hf : (fun v : ℚ => v * (getDaysInYear "2024".toList : ℚ)) = fun v : ℚ => v * 366 := by
      funext v
      rw [h]
      norm_num
    rw [hf]
  · intro col year h
    have h365 : getDaysInYear year = 365 := by unfold getDaysInYear; rw [h]
    unfold scaleYearColumn
    have hf : (fun v : ℚ => v * (getDaysInYear year : ℚ)) = fun v : ℚ => v * 365 := by
      funext v
      rw [h365]
      norm_num
    rw [hf]

/-- Witness for c5_day_scaling at the concrete year 2024. -/
theorem c5_day_scaling_witness :
    getDaysInYear "2024".toList
      = if ((2024 : Int) % 4 = 0 ∧ (2024 : Int) % 100 ≠ 0) ∨ (2024 : Int) % 400 = 0
        then 366 else 365 :=
  c5_day_scaling.1 "2024".toList 2024 (by decide)

/-- Claim C6 counterexample: the comparator ID normalization is not
idempotent; "A.0.0" normalizes to "A.0", which normalizes again to "A". -/
theorem c6_idempotence_cex :
    normId (normId "A.0.0".toList) ≠ normId "A.0.0".toList := by decide

/-- Claim C6 (amended): applying the comparator ID normalization to an
already-normalized ID — no leading or trailing whitespace, fixed under
upper-casing, and not ending in ".0" — is a no-op; full idempotence fails
because stripping one trailing ".0" can expose another (or expose trailing
whitespace), as in "A.0.0". -/
theorem c6_norm_id_noop (s : Str)
    (h1 : s.dropWhile isPySpace = s)
    (h2 : s.reverse.dropWhile isPySpace = s.reverse)
    (h3 : pyUpper s = s)
    (h4 : s.reverse.take 2 ≠ ['0', '.']) :
    normId s = s := by
  have hstrip : pyStrip s = s := by
    unfold pyStrip
    rw [h1, h2, List.reverse_reverse]
  have hnl : ¬ s.reverse.take 3 = ['\n', '0', '.'] := by
    intro h5
    rcases hr : s.reverse with _ | ⟨c, rest⟩
    · rw [hr] at h5
      simp at h5
    · rw [hr] at h5
      have hc : c = '\n' := by
        have := congrArg List.head? h5
        simpa using this

      rw [hr, hc] at h2
      have hsp : isPySpace '\n' = true := by decide
      rw [List.dropWhile_cons, if_pos hsp] at h2
      have hlen := dropWhileLenLe isPySpace rest
      rw [h2] at hlen
      simp at hlen
  have hchop : chopDot0 s = s := by
    unfold chopDot0
    rw [if_neg h4, if_neg hnl]
  unfold normId
  rw [hstrip, h3, hchop]

/-- Witness for c6_norm_id_noop at the already-normalized ID "ABC". -/
theorem c6_norm_id_noop_witness : normId "ABC".toList = "ABC".toList :=
  c6_norm_id_noop "ABC".toList (by decide) (by decide) (by decide) (by decide)

/-- Claim C7 counterexample: on the value " Low" the source first trims and
yields ("Low", "PR"), while the claim as stated (exact-match cases on the raw
value, then split on the first space) yields ("", "Low"). -/
theorem c7_split_uv_cex :
    splitUncertaintyValuation (some " Low".toList)
      ≠ splitUncertaintyValuationClaim (some " Low".toList) := by decide

/-- Claim C7 (amended): the field value is first coerced to a string and
trimmed; the case analysis then applies to the trimmed value: exact "Low"
gives (Low, PR), exact "High" gives (High, PR), exact "SEC" gives (Low, YAP),
a trimmed value containing a space is split once on its first space, any
other trimmed value maps to (value, empty), and a missing value gives a pair
of empty strings. -/
theorem c7_split_uv :
    splitUncertaintyValuation none = ([], [])
    ∧ (∀ v, pyStrip v = "Low".toList →
        splitUncertaintyValuation (some v) = ("Low".toList, "PR".toList))
    ∧ (∀ v, pyStrip v = "High".toList →
        splitUncertaintyValuation (some v) = ("High".toList, "PR".toList))
    ∧ (∀ v, pyStrip v = "SEC".toList →
        splitUncertaintyValuation (some v) = ("Low".toList, "YAP".toList))
    ∧ (∀ v, pyStrip v ≠ "Low".toList → pyStrip v ≠ "High".toList →
        pyStrip v ≠ "SEC".toList → ' ' ∈ pyStrip v →
        splitUncertaintyValuation (some v) = pySplitSpace1 (pyStrip v))
    ∧ (∀ v, pyStrip v ≠ "Low".toList → pyStrip v ≠ "High".toList →
        pyStrip v ≠ "SEC".toList → ' ' ∉ pyStrip v →
        splitUncertaintyValuation (some v) = (pyStrip v, [])) := by
  refine ⟨rfl, ?_, ?_, ?_, ?_, ?_⟩
  · intro v h
    simp [splitUncertaintyValuation, h]
  · intro v h
    simp [splitUncertaintyValuation, h]
  · intro v h
    simp [splitUncertaintyValuation, h]
  · intro v h1 h2 h3 h4
    simp only [splitUncertaintyValuation]
    rw [if_neg h1, if_neg h2, if_neg h3, if_pos h4]
  · intro v h1 h2 h3 h4
    simp only [splitUncertaintyValuation]
    rw [if_neg h1, if_neg h2, if_neg h3, if_neg h4]

/-- Witness for c7_split_uv: the trimmed-space case at " Oil PR". -/
theorem c7_split_uv_witness :
    splitUncertaintyValuation (some " Oil PR".toList)
      = pySplitSpace1 (pyStrip " Oil PR".toList) :=
  c7_split_uv.2.2.2.2.1 " Oil PR".toList (by decide) (by decide) (by decide) (by decide)

/-- Claim C2 counterexample: on the label
"01. OIL SWIS - 45% - Not Applied - Sales" the parser returns the all-empty
record, not the five parsed attributes the claim states: the regex rejects
the extra dash before "Not Applied" and the fallback raises internally. -/
theorem c2_round_trip_cex :
    parseMetricRecord canonicalLabel = emptyMetricRecord
    ∧ parseMetricRecord canonicalLabel
        ≠ ⟨"OIL".toList, "45".toList, "SWIS".toList, "Not Applied".toList, "Sales".toList⟩ := by
  constructor
  · decide
  · decide

/-- Claim C2 (amended): on the label
"01. OIL SWIS - 45% - Not Applied - Sales" the parser returns all five
fields empty without raising; the label in the format the regex actually
accepts, "01. OIL SWIS - 45% unt - Sales", yields PRODUCT OIL, EQUITY_SHARE
45, PRODUCT_STREAM SWIS, CUT_OFF Not Applied, TYPE Sales; and any string on
which the internal parse fails yields all five fields empty with no
exception propagating. -/
theorem c2_metric_parse :
    parseMetricRecord canonicalLabel = emptyMetricRecord
    ∧ parseMetricE canonicalLabel = .ok emptyMetricRecord
    ∧ parseMetricRecord codedLabel
        = ⟨"OIL".toList, "45".toList, "SWIS".toList, "Not Applied".toList, "Sales".toList⟩
    ∧ (∀ s e, parseMetricInner s = .error e → parseMetricE s = .ok emptyMetricRecord) := by
  refine ⟨by decide, by decide, by decide, ?_⟩
  intro s e h
  unfold parseMetricE
  rw [h]

/-- Witness for c2_metric_parse at a concrete garbage string. -/
theorem c2_metric_parse_witness :
    parseMetricE "garbage".toList = .ok emptyMetricRecord :=
  c2_metric_parse.2.2.2 "garbage".toList (PyErr.unboundLocal "equity_share") (by decide)

/-- Claim C3: for every input string the parser returns a complete
five-field record (the MetricRecord type carries exactly the five string
fields) and never raises to its caller; on any internal parse failure the
returned record is all-empty. -/
theorem c3_parse_total :
    ∀ s : Str, ∃ r : MetricRecord, parseMetricE s = .ok r
      ∧ (∀ e, parseMetricInner s = .error e → r = emptyMetricRecord) := by
  intro s
  refine ⟨parseMetricRecord s, ?_, ?_⟩
  · unfold parseMetricE parseMetricRecord
    cases parseMetricInner s with
    | ok r => rfl
    | error e => rfl
  · intro e h
    unfold parseMetricRecord
    rw [h]

/-- Witness for c3_parse_total at a concrete unparseable string. -/
theorem c3_parse_total_witness :
    parseMetricE "@@??".toList = .ok emptyMetricRecord := by
  obtain ⟨r, h1, h2⟩ := c3_parse_total "@@??".toList
  rw [h2 (PyErr.unboundLocal "equity_share") (by decide)] at h1
  exact h1

/-- Claim C4: observations are grouped by the key attributes plus the year,
summed and counted; a group of more than one observation is averaged by its
count, a singleton group keeps its value; in particular two observations 100
and 200 for one year yield 150 pre-day-scaling and a single observation 150
stays 150. -/
theorem c4_month_aware_aggregation :
    (∀ rows k, 1 < monthCount rows k →
      annualValue rows k = groupSum rows k / (monthCount rows k : ℚ))
    ∧ (∀ rows k, monthCount rows k = 1 → annualValue rows k = groupSum rows k)
    ∧ (∀ k v, annualValue [⟨k, v⟩] k = v)
    ∧ (∀ k a b, annualValue [⟨k, a⟩, ⟨k, b⟩] k = (a + b) / 2)
    ∧ annualValue [⟨sampleKey, 100⟩, ⟨sampleKey, 200⟩] sampleKey = 150
    ∧ annualValue [⟨sampleKey, 150⟩] sampleKey = 150 := by
  have part3 : ∀ k v, annualValue [⟨k, v⟩] k = v := by
    intro k v
    simp [annualValue, monthCount, groupSum, List.filter]
  have part4 : ∀ k a b, annualValue [⟨k, a⟩, ⟨k, b⟩] k = (a + b) / 2 := by
    intro k a b
    simp [annualValue, monthCount, groupSum, List.filter]
  refine ⟨?_, ?_, part3, part4, ?_, ?_⟩
  · intro rows k h
    unfold annualValue
    rw [if_pos h]
  · intro rows k h
    unfold annualValue
    rw [h]
    norm_num
  · exact (part4 sampleKey 100 200).trans (by norm_num)
  · exact part3 sampleKey 150

/-- Witness for c4_month_aware_aggregation: the averaging case applied to a
concrete two-observation group. -/
theorem c4_month_aware_aggregation_witness :
    annualValue [⟨sampleKey, 100⟩, ⟨sampleKey, 200⟩] sampleKey
      = groupSum [⟨sampleKey, 100⟩, ⟨sampleKey, 200⟩] sampleKey
        / (monthCount [⟨sampleKey, 100⟩, ⟨sampleKey, 200⟩] sampleKey : ℚ) :=
  c4_month_aware_aggregation.1 [⟨sampleKey, 100⟩, ⟨sampleKey, 200⟩] sampleKey (by decide)

/-- Lookup of the first pair with a given first component, over a list of
pairs built from base elements. -/
theorem find?_fst_map {α β : Type} [DecidableEq α] (g : α → β) (l : List α) (a : α) :
    ((l.map fun x => (x, g x)).find? fun e => decide (e.1 = a))
      = if a ∈ l then some (a, g a) else none := by
  induction l with
  | nil => simp
  | cons b t ih =>
    by_cases hb : b = a
    · subst hb
      simp [List.find?]
    · have hb' : ¬ a = b := fun h => hb h.symm
      simp [List.find?, hb, hb', ih, List.mem_cons]

/-- Cell lookup in an association list built over a set of column labels. -/
theorem cellVal_map (g : Str → ℚ) (l : List Str) (y : Str) :
    cellVal (l.map fun x => (x, g x)) y = if y ∈ l then g y else 0 := by
  unfold cellVal
  rw [find?_fst_map]
  by_cases h : y ∈ l
  · simp [h]
  · simp [h]

/-- Looking a key up in the aggregated side: present exactly when the key is
one of the side group keys, with the per-year sums as the row. -/
theorem find?_aggRows (t : SideTable) (k : CompKey) :
    ((aggRows t).find? fun e => decide (e.1 = k))
      = if k ∈ keysOf t then
          some (k, (yearColsOf t).map fun y => (y, aggVal t k y))
        else none :=
  find?_fst_map (fun k' => (yearColsOf t).map fun y => (y, aggVal t k' y)) (keysOf t) k

/-- Claim C1: for every 4-digit year column present on both inputs, the
merged comparator output carries a diff column for that year, equal on every
merged row to the P1 aggregated value minus the R1 aggregated value for that
key with a missing side treated as 0; for a key present only on the P1 side
the diff equals the P1 value itself. -/
theorem c1_diff_correct :
    ∀ p1 r1 : SideTable, ∀ m ∈ tseMergedRows p1 r1, ∀ y : Str,
      y.length = 4 → y.all Char.isDigit = true →
      y ∈ p1.years → y ∈ r1.years →
      y ∈ tseCommonYears p1 r1
      ∧ diffAt m y
          = (if m.key ∈ keysOf (normSide p1) then aggVal (normSide p1) m.key y else 0)
            - (if m.key ∈ keysOf (normSide r1) then aggVal (normSide r1) m.key y else 0)
      ∧ (m.key ∈ keysOf (normSide p1) → m.key ∉ keysOf (normSide r1) →
          diffAt m y = aggVal (normSide p1) m.key y) := by
  intro p1 r1 m hm y hy4 hyd hyp hyr
  have hne : y.isEmpty = false := by
    cases y with
    | nil => simp at hy4
    | cons c t => rfl
  have hdig : isDigitStr y = true := by
    unfold isDigitStr
    rw [hne, hyd]
    rfl
  have hyp' : y ∈ yearColsOf (normSide p1) := by
    unfold yearColsOf normSide
    exact List.mem_filter.mpr ⟨hyp, hdig⟩
  have hyr' : y ∈ yearColsOf (normSide r1) := by
    unfold yearColsOf normSide
    exact List.mem_filter.mpr ⟨hyr, hdig⟩
  have hcy : y ∈ tseCommonYears p1 r1 := by
    unfold tseCommonYears
    exact List.mem_filter.mpr ⟨hyp', by simpa using hyr'⟩
  obtain ⟨k, hk, rfl⟩ := List.mem_map.mp hm
  have heq : diffAt (mergedRowFor p1 r1 k) y
      = (if k ∈ keysOf (normSide p1) then aggVal (normSide p1) k y else 0)
        - (if k ∈ keysOf (normSide r1) then aggVal (normSide r1) k y else 0) := by
    unfold diffAt mergedRowFor
    rw [find?_aggRows, find?_aggRows]
    by_cases hp : k ∈ keysOf (normSide p1) <;>
      by_cases hr : k ∈ keysOf (normSide r1) <;>
        simp [hp, hr, fillna0, cellVal_map, hyp', hyr']
  have hkey : (mergedRowFor p1 r1 k).key = k := rfl
  rw [hkey]
  refine ⟨hcy, heq, fun h1 h2 => ?_⟩
  rw [heq, if_pos h1, if_neg h2, sub_zero]

/-- Witness for c1_diff_correct at concrete one-row tables with the key
present only on the P1 side. -/
theorem c1_diff_correct_witness :
    "2025".toList ∈ tseCommonYears p1Sample r1Sample
    ∧ diffAt (mergedRowFor p1Sample r1Sample keyA) "2025".toList
        = (if keyA ∈ keysOf (normSide p1Sample)
           then aggVal (normSide p1Sample) keyA "2025".toList else 0)
          - (if keyA ∈ keysOf (normSide r1Sample)
             then aggVal (normSide r1Sample) keyA "2025".toList else 0)
    ∧ (keyA ∈ keysOf (normSide p1Sample) → keyA ∉ keysOf (normSide r1Sample) →
        diffAt (mergedRowFor p1Sample r1Sample keyA) "2025".toList
          = aggVal (normSide p1Sample) keyA "2025".toList) :=
  c1_diff_correct p1Sample r1Sample (mergedRowFor p1Sample r1Sample keyA)
    (List.mem_map.mpr ⟨keyA, by decide, rfl⟩) "2025".toList (by decide) (by decide)
    (by decide) (by decide)

/-- Claim C8: both reconcilers raise a RuntimeError when invoked before both
input tables are supplied, return no partial result on that path, and leave
the object state unchanged. -/
theorem c8_unset_inputs_error :
    (∀ s : TSEComparatorState, s.dfP1 = none ∨ s.dfR1 = none →
      tseCompare s
        = (.error (.runtimeError "Set P1 and R1 dataframes first or use from_paths()."), s))
    ∧ (∀ s : HierComparisonState, s.dfP1 = none ∨ s.dfR1 = none →
      hierBuild s
        = (.error
            (.runtimeError "Both P1 and R1 hierarchy DataFrames must be set before build()."),
           s)) := by
  constructor
  · intro s h
    rcases s with ⟨p1, r1⟩
    rcases h with h | h
    · simp only at h
      subst h
      cases r1 <;> rfl
    · simp only at h
      subst h
      cases p1 <;> rfl
  · intro s h
    rcases s with ⟨p1, r1, out⟩
    rcases h with h | h
    · simp only at h
      subst h
      cases r1 <;> rfl
    · simp only at h
      subst h
      cases p1 <;> rfl

/-- Witness for c8_unset_inputs_error at concrete states with one side
unset. -/
theorem c8_unset_inputs_error_witness :
    tseCompare ⟨none, some r1Sample⟩
      = (.error (.runtimeError "Set P1 and R1 dataframes first or use from_paths()."),
         ⟨none, some r1Sample⟩)
    ∧ hierBuild ⟨some hierPSample, none, none⟩
      = (.error
          (.runtimeError "Both P1 and R1 hierarchy DataFrames must be set before build()."),
         ⟨some hierPSample, none, none⟩) :=
  ⟨c8_unset_inputs_error.1 ⟨none, some r1Sample⟩ (Or.inl rfl),
   c8_unset_inputs_error.2 ⟨some hierPSample, none, none⟩ (Or.inr rfl)⟩

/-- A match mark equals the check mark exactly when both operands are
present and equal. -/
theorem flagMatch_spec (a b : Option Str) :
    ((if a.isSome ∧ b.isSome ∧ a = b then checkMark else crossMark) = checkMark
      ↔ a.isSome ∧ b.isSome ∧ a = b) := by
  by_cases h : a.isSome ∧ b.isSome ∧ a = b
  · simp [h]
  · rw [if_neg h]
    constructor
    · intro hc
      exact absurd hc (by decide)
    · intro hx
      exact absurd hx h

/-- Claim C10: in every hierarchy comparison output row, the AE and TE
name-match flags are the check mark exactly when both sides carry a
non-missing normalized shadow name and the two agree; a missing name on
either side forces the cross mark; and build returns normally (no error)
once both inputs are set. -/
theorem c10_name_match_flags :
    (∀ pRows rRows : List HierRow, ∀ o ∈ hierBuildRows pRows rRows,
      (o.aeFlag = checkMark ↔
        (aeShP o.row).isSome ∧ (aeShR o.row).isSome ∧ aeShP o.row = aeShR o.row)
      ∧ (o.teFlag = checkMark ↔
        (teShP o.row).isSome ∧ (teShR o.row).isSome ∧ teShP o.row = teShR o.row)
      ∧ (aeShP o.row = none ∨ aeShR o.row = none → o.aeFlag = crossMark)
      ∧ (teShP o.row = none ∨ teShR o.row = none → o.teFlag = crossMark))
    ∧ (∀ (s : HierComparisonState) p r, s.dfP1 = some p → s.dfR1 = some r →
        (hierBuild s).1 = .ok (hierBuildRows p r)) := by
  constructor
  · intro pRows rRows o ho
    obtain ⟨m, hm, rfl⟩ := List.mem_map.mp ho
    refine ⟨flagMatch_spec (aeShP m) (aeShR m), flagMatch_spec (teShP m) (teShR m), ?_, ?_⟩
    · intro hn
      show (if (aeShP m).isSome ∧ (aeShR m).isSome ∧ aeShP m = aeShR m
            then checkMark else crossMark) = crossMark
      rw [if_neg]
      rintro ⟨hs1, hs2, -⟩
      rcases hn with h | h
      · rw [h] at hs1
        simp at hs1
      · rw [h] at hs2
        simp at hs2
    · intro hn
      show (if (teShP m).isSome ∧ (teShR m).isSome ∧ teShP m = teShR m
            then checkMark else crossMark) = crossMark
      rw [if_neg]
      rintro ⟨hs1, hs2, -⟩
      rcases hn with h | h
      · rw [h] at hs1
        simp at hs1
      · rw [h] at hs2
        simp at hs2
  · intro s p r hp hr
    rcases s with ⟨p1, r1, out⟩
    simp only at hp hr
    subst hp
    subst hr
    rfl

/-- Witness for c10_name_match_flags at concrete one-row hierarchy inputs
(AE names agree up to case, TE name missing on the R1 side). -/
theorem c10_name_match_flags_witness :
    (hierOutSampleRow.aeFlag = checkMark ↔
      (aeShP hierOutSampleRow.row).isSome ∧ (aeShR hierOutSampleRow.row).isSome
        ∧ aeShP hierOutSampleRow.row = aeShR hierOutSampleRow.row)
    ∧ (hierOutSampleRow.teFlag = checkMark ↔
      (teShP hierOutSampleRow.row).isSome ∧ (teShR hierOutSampleRow.row).isSome
        ∧ teShP hierOutSampleRow.row = teShR hierOutSampleRow.row)
    ∧ (aeShP hierOutSampleRow.row = none ∨ aeShR hierOutSampleRow.row = none →
        hierOutSampleRow.aeFlag = crossMark)
    ∧ (teShP hierOutSampleRow.row = none ∨ teShR hierOutSampleRow.row = none →
        hierOutSampleRow.teFlag = crossMark) :=
  c10_name_match_flags.1 hierPSample hierRSample hierOutSampleRow (by decide)

/-- The scan fold lands on row 2 when rows 0 and 1 score strictly lower and
every later scanned row scores no higher. -/
theorem bestScanAux (t : RawTable) (d : Nat)
    (h0 : rowScore t 0 < rowScore t 2) (h1 : rowScore t 1 < rowScore t 2)
    (hrest : ∀ i, 3 ≤ i → i < 3 + d → rowScore t i ≤ rowScore t 2) :
    (List.range (3 + d)).foldl (scanStep t) (none, -1)
      = (some 2, (rowScore t 2 : Int)) := by
  induction d with
  | zero =>
    have hr3 : List.range (3 + 0) = [0, 1, 2] := rfl
    rw [hr3]
    have s0 : scanStep t (none, -1) 0 = (some 0, (rowScore t 0 : Int)) := by
      have hc : ((-1 : Int) < (rowScore t 0 : Int)) := by omega
      simp [scanStep, hc]
    by_cases hc1 : ((rowScore t 0 : Int) < (rowScore t 1 : Int))
    · have s1 : scanStep t (some 0, (rowScore t 0 : Int)) 1
          = (some 1, (rowScore t 1 : Int)) := by
        simp [scanStep, hc1]
      have hc2 : ((rowScore t 1 : Int) < (rowScore t 2 : Int)) := by exact_mod_cast h1
      have s2 : scanStep t (some 1, (rowScore t 1 : Int)) 2
          = (some 2, (rowScore t 2 : Int)) := by
        simp [scanStep, hc2]
      simp only [List.foldl, s0, s1, s2]
    · have s1 : scanStep t (some 0, (rowScore t 0 : Int)) 1
          = (some 0, (rowScore t 0 : Int)) := by
        simp [scanStep, hc1]
      have hc2 : ((rowScore t 0 : Int) < (rowScore t 2 : Int)) := by exact_mod_cast h0
      have s2 : scanStep t (some 0, (rowScore t 0 : Int)) 2
          = (some 2, (rowScore t 2 : Int)) := by
        simp [scanStep, hc2]
      simp only [List.foldl, s0, s1, s2]
  | succ d ih =>
    have hsum : 3 + (d + 1) = (3 + d) + 1 := rfl
    rw [hsum, List.range_succ, List.foldl_append,
      ih (fun i h3 hlt => hrest i h3 (by omega))]
    have hle : rowScore t (3 + d) ≤ rowScore t 2 := hrest (3 + d) (by omega) (by omega)
    have hnlt : ¬ ((rowScore t 2 : Int) < (rowScore t (3 + d) : Int)) := by
      exact_mod_cast not_lt.mpr hle
    simp [scanStep, hnlt]

/-- Claim C9 counterexample: the claim says a table whose header already
contains recognized labels is left untouched regardless of its
unnamed-column ratio, but with ratio 2/3 the early exit of line 74 does not
fire and the single data row (scoring 3) is promoted, changing the table. -/
theorem c9_header_promotion_cex :
    haveKeyInCols t9CexSample = true
    ∧ maybePromoteHeaderRow t9CexSample ≠ t9CexSample := by
  constructor
  · decide
  · decide

/-- Claim C9 (amended): a raw table with at least one column, all header
names "Unnamed" placeholders, at least 3 rows, whose third data row scores
at least 3 recognized labels, strictly more than the two rows above it and
at least as many as every later scanned row, has that row promoted to the
header with the 3 rows above and including it dropped (and all-missing
columns pruned); and a table whose header contains a recognized label is
left untouched provided its unnamed-column ratio is below 0.4. -/
theorem c9_header_promotion :
    (∀ t : RawTable, t.header ≠ [] → 3 ≤ t.rows.length →
      (∀ c ∈ t.header, "unnamed".toList.isPrefixOf (pyLower c) = true) →
      rowScore t 0 < rowScore t 2 → rowScore t 1 < rowScore t 2 →
      (∀ i ∈ List.range (scanCount t), 3 ≤ i → rowScore t i ≤ rowScore t 2) →
      3 ≤ rowScore t 2 →
      maybePromoteHeaderRow t = promoteAt t 2)
    ∧ (∀ t : RawTable, haveKeyInCols t = true → unnamedFracLt04 t = true →
      maybePromoteHeaderRow t = t) := by
  constructor
  · intro t hhdr hlen hall h0 h1 hrest h3
    have hrowsE : t.rows.isEmpty = false := by
      cases hrows : t.rows with
      | nil => rw [hrows] at hlen; simp at hlen
      | cons a l => rfl
    have hhdrE : t.header.isEmpty = false := by
      cases hh : t.header with
      | nil => exact absurd hh hhdr
      | cons a l => rfl
    have hcount : unnamedCount t = t.header.length := by
      unfold unnamedCount
      rw [List.filter_eq_self.mpr hall]
    have hpos : 1 ≤ t.header.length := List.length_pos.mpr hhdr
    have hfrac : unnamedFracLt04 t = false := by
      unfold unnamedFracLt04
      rw [hcount]
      simp only [decide_eq_false_iff_not]
      omega
    have hscan : 3 ≤ scanCount t := by
      unfold scanCount
      omega
    obtain ⟨d, hd⟩ : ∃ d, scanCount t = 3 + d := ⟨scanCount t - 3, by omega⟩
    have hbs : bestScan t = (some 2, (rowScore t 2 : Int)) := by
      unfold bestScan
      rw [hd]
      exact bestScanAux t d h0 h1
        (fun i hi3 hilt => hrest i (List.mem_range.mpr (by omega)) hi3)
    have h3i : (3 : Int) ≤ (rowScore t 2 : Int) := by exact_mod_cast h3
    unfold maybePromoteHeaderRow
    rw [hrowsE, hhdrE, hfrac, hbs]
    simp [h3i]
  · intro t hk hf
    by_cases he : (t.rows.isEmpty || t.header.isEmpty) = true
    · simp [maybePromoteHeaderRow, he]
    · simp only [Bool.or_eq_true] at he
      push_neg at he
      simp [maybePromoteHeaderRow, he.1, he.2, hk, hf]

/-- Witness for c9_header_promotion at concrete tables: promotion of the
third row, and the untouched early-exit case. -/
theorem c9_header_promotion_witness :
    maybePromoteHeaderRow t9Sample = promoteAt t9Sample 2
    ∧ maybePromoteHeaderRow t9bSample = t9bSample :=
  ⟨c9_header_promotion.1 t9Sample (by decide) (by decide) (by decide) (by decide)
      (by decide) (by decide) (by decide),
   c9_header_promotion.2 t9bSample (by decide) (by decide)⟩

end QcTool
